import Mathlib

/-!
Shallow embedding of the rusty-cheddar lint pass (`src/lib.rs`): a
declaration-to-C-header translator.  Pure functions (`rust_to_c`,
`parse_attr`, the attribute predicates) are translated directly; the
buffer-mutating emitters (`parse_ty`, `parse_enum`, `parse_struct`,
`parse_fn`) are translated as functions from the current buffer to an
`EmitResult` carrying the new buffer, the `span_err` diagnostics issued,
and the `span_fatal` abort (if any).  The `Drop` finalizer is translated
as a function of an I/O oracle describing which sequential writes fail.

Strings model Rust strings; `&typ[4..]` byte slicing coincides with
4-character drops here because it is only applied after an ASCII marker
matched.  Rust `str::trim` (Unicode whitespace) is modelled by ASCII
whitespace trimming, which agrees on all type-syntax strings.
-/

namespace Cheddar

/-- Whitespace stripping from the left, as used by Rust `str::trim`. -/
def trimLeft : List Char → List Char
  | [] => []
  | c :: cs => if c.isWhitespace then trimLeft cs else c :: cs

/-- Rust `str::trim`: strip whitespace from both ends. -/
def rustTrim (cs : List Char) : List Char :=
  (trimLeft ((trimLeft cs).reverse)).reverse

theorem trimLeft_length_le (cs : List Char) : (trimLeft cs).length ≤ cs.length := by
  induction cs with
  | nil => simp [trimLeft]
  | cons c cs ih =>
    simp only [trimLeft]
    split
    · exact Nat.le_succ_of_le ih
    · simp

theorem rustTrim_length_le (cs : List Char) : (rustTrim cs).length ≤ cs.length := by
  unfold rustTrim
  calc (trimLeft ((trimLeft cs).reverse)).reverse.length
      = (trimLeft ((trimLeft cs).reverse)).length := by simp
    _ ≤ (trimLeft cs).reverse.length := trimLeft_length_le _
    _ = (trimLeft cs).length := by simp
    _ ≤ cs.length := trimLeft_length_le cs

/-- Embedding of `rust_to_c` (src/lib.rs lines 168-200): strip `*mut` /
`*const` markers recursively, otherwise translate through the fixed
primitive table, defaulting to the identity. -/
def rust_to_c (typ : String) : String :=
  if h4 : typ.data.take 4 = "*mut".data then
    rust_to_c (String.mk (rustTrim (typ.data.drop 4))) ++ "*"
  else if h6 : typ.data.take 6 = "*const".data then
    "const " ++ rust_to_c (String.mk (rustTrim (typ.data.drop 6))) ++ "*"
  else
    if typ = "()" then "void"
    else if typ = "f32" then "float"
    else if typ = "f64" then "double"
    else if typ = "i8" then "int8_t"
    else if typ = "i16" then "int16_t"
    else if typ = "i32" then "int32_t"
    else if typ = "i64" then "int64_t"
    else if typ = "isize" then "intptr_t"
    else if typ = "u8" then "uint8_t"
    else if typ = "u16" then "uint16_t"
    else if typ = "u32" then "uint32_t"
    else if typ = "u64" then "uint64_t"
    else if typ = "usize" then "uintptr_t"
    else typ
termination_by typ.data.length
decreasing_by
  · have hmin : min 4 typ.data.length = 4 := by
      rw [← List.length_take, h4]; rfl
    have htr := rustTrim_length_le (typ.data.drop 4)
    rw [List.length_drop] at htr
    show (rustTrim (typ.data.drop 4)).length < typ.data.length
    omega
  · have hmin : min 6 typ.data.length = 6 := by
      rw [← List.length_take, h6]; rfl
    have htr := rustTrim_length_le (typ.data.drop 6)
    rw [List.length_drop] at htr
    show (rustTrim (typ.data.drop 6)).length < typ.data.length
    omega

/-- Literal values inside attributes (`syntax::ast::Lit_`), restricted to
the shapes `retrieve_docstring` distinguishes. -/
inductive Lit
  | LitStr (s : String)
  | LitOther
deriving DecidableEq

/-- Attribute meta items (`syntax::ast::MetaItem_`). -/
inductive MetaItem
  | MetaWord (name : String)
  | MetaList (name : String) (words : List MetaItem)
  | MetaNameValue (name : String) (val : Lit)

/-- An attribute; `value` models `attr.node.value.node`. -/
structure Attribute where
  value : MetaItem

/-- Embedding of `parse_attr` (lines 118-131): one pass over the
attributes, latching the check flag and accumulating retrieved text. -/
def parse_attr (attrs : List Attribute) (check : Attribute → Bool)
    (retrieve : Attribute → String) : Bool × String :=
  attrs.foldl
    (fun acc attr =>
      ((if acc.1 then acc.1 else check attr), acc.2 ++ retrieve attr))
    (false, "")

/-- Embedding of `check_repr_c` (lines 133-145). -/
def check_repr_c (attr : Attribute) : Bool :=
  match attr.value with
  | .MetaList name words =>
      if name = "repr" then
        match words.head? with
        | some (.MetaWord w) => w = "C"
        | _ => false
      else false
  | _ => false

/-- Embedding of `check_no_mangle` (lines 147-152). -/
def check_no_mangle (attr : Attribute) : Bool :=
  match attr.value with
  | .MetaWord name => name = "no_mangle"
  | _ => false

/-- Embedding of `retrieve_docstring` (lines 156-166). -/
def retrieve_docstring (attr : Attribute) : String :=
  match attr.value with
  | .MetaNameValue name val =>
      if name = "doc" then
        match val with
        | .LitStr docs => docs ++ "\n"
        | _ => ""
      else ""
  | _ => ""

/-- Item visibility; the source only distinguishes `Inherited` (private)
from everything else. -/
inductive Visibility
  | Public
  | Inherited
deriving DecidableEq

/-- An enum variant: its attributes, whether `var.node.data.is_unit()`,
its pretty-printed form (`pprust::variant_to_string`), and its span. -/
structure Variant where
  attrs : List Attribute
  isUnit : Bool
  rendered : String
  span : Nat

/-- A struct field (`ast::StructField`): attributes, optional identifier
(`var.node.ident()`), pretty-printed type, span. -/
structure StructField where
  attrs : List Attribute
  ident : Option String
  ty : String
  span : Nat

/-- Struct variant data: `VariantData::Struct` with named fields, or any
other shape (tuple / unit). -/
inductive VariantData
  | Struct (fields : List StructField)
  | TupleOrUnit

/-- Function return types (`ast::FunctionRetTy`); type already rendered
by `pprust::ty_to_string`. -/
inductive FunctionRetTy
  | NoReturn (span : Nat)
  | DefaultReturn
  | Return (ty : String)
deriving DecidableEq

/-- A function argument: pretty-printed pattern and type. -/
structure Arg where
  pat : String
  ty : String
deriving DecidableEq

/-- A function declaration (`ast::FnDecl`). -/
structure FnDecl where
  inputs : List Arg
  output : FunctionRetTy
deriving DecidableEq

/-- ABIs: the source admits C, Cdecl, Stdcall, Fastcall and System;
`Rust` stands for any of the remaining ABIs. -/
inductive Abi
  | C
  | Cdecl
  | Stdcall
  | Fastcall
  | System
  | Rust
deriving DecidableEq

/-- Item bodies (`ast::Item_`), with types already rendered to strings
and `generics.is_parameterized()` evaluated to a Bool. -/
inductive ItemNode
  | ItemTy (ty : String) (parameterized : Bool)
  | ItemEnum (variants : List Variant) (parameterized : Bool)
  | ItemStruct (vd : VariantData) (parameterized : Bool)
  | ItemFn (decl : FnDecl) (abi : Abi) (parameterized : Bool)
  | ItemOther

/-- An item (`ast::Item`): name, visibility, attributes, body, span. -/
structure Item where
  name : String
  vis : Visibility
  attrs : List Attribute
  node : ItemNode
  span : Nat

/-- A diagnostic: source span paired with the message. -/
abbrev Diag := Nat × String

/-- Result of running one emitter: the new buffer, the `span_err`
diagnostics issued (in order), and the `span_fatal` abort if one fired. -/
structure EmitResult where
  buffer : String
  errs : List Diag
  fatal : Option Diag
deriving DecidableEq

/-- Rust `String::pop`: drop the last character. -/
def strPop (s : String) : String := String.mk s.data.dropLast

/-- Embedding of `parse_ty` (lines 203-221). -/
def parse_ty (buffer : String) (item : Item) : EmitResult :=
  let docs := (parse_attr item.attrs (fun _ => true) retrieve_docstring).2
  let new_type := item.name
  match item.node with
  | .ItemTy ty parameterized =>
      if parameterized then ⟨buffer, [], none⟩
      else
        ⟨buffer ++ docs ++ "typedef " ++ rust_to_c ty ++ " " ++ new_type ++ ";\n\n",
          [], none⟩
  | _ => ⟨buffer, [], some (item.span, "`parse_ty` called on incorrect `Item_`")⟩

/-- The per-variant loop of `parse_enum` (lines 237-249): `Sum.inl` is an
early return out of `parse_enum`, `Sum.inr` the buffer after the loop. -/
def enumVariantsLoop (buffer : String) : List Variant → Sum EmitResult String
  | [] => .inr buffer
  | v :: rest =>
      if v.isUnit then
        let docs := (parse_attr v.attrs (fun _ => true) retrieve_docstring).2
        enumVariantsLoop (buffer ++ docs ++ "\t" ++ v.rendered ++ ",\n") rest
      else
        .inl ⟨buffer,
          [(v.span, "cheddar can not handle `#[repr(C)]` enums with non-unit variants")],
          none⟩

/-- Embedding of `parse_enum` (lines 223-255). -/
def parse_enum (buffer : String) (item : Item) : EmitResult :=
  let pr := parse_attr item.attrs check_repr_c retrieve_docstring
  if pr.1 = false then ⟨buffer, [], none⟩
  else
    let buffer := buffer ++ pr.2
    let name := item.name
    let buffer := buffer ++ "typedef enum " ++ name ++ " \x7b\n"
    match item.node with
    | .ItemEnum variants parameterized =>
        if parameterized then
          ⟨buffer,
            [(item.span, "cheddar can not handle parameterized `#[repr(C)]` enums")],
            none⟩
        else
          match enumVariantsLoop buffer variants with
          | .inl res => res
          | .inr buffer => ⟨buffer ++ "\x7d " ++ name ++ ";\n\n", [], none⟩
    | _ => ⟨buffer, [], some (item.span, "`parse_enum` called in wrong `Item_`")⟩

/-- The per-field loop of `parse_struct` (lines 274-285): `Sum.inl` is an
early abort (`span_fatal`), `Sum.inr` the buffer after the loop. -/
def structFieldsLoop (buffer : String) : List StructField → Sum EmitResult String
  | [] => .inr buffer
  | f :: rest =>
      let docs := (parse_attr f.attrs (fun _ => true) retrieve_docstring).2
      let buffer := buffer ++ docs
      match f.ident with
      | none => .inl ⟨buffer, [], some (f.span, "a tuple struct snuck through")⟩
      | some n =>
          structFieldsLoop (buffer ++ "\t" ++ rust_to_c f.ty ++ " " ++ n ++ ";\n") rest

/-- Embedding of `parse_struct` (lines 257-294).  Note that in the
tuple/unit case the source issues `span_err` without returning, so the
closing line is still pushed. -/
def parse_struct (buffer : String) (item : Item) : EmitResult :=
  let pr := parse_attr item.attrs check_repr_c retrieve_docstring
  if pr.1 = false then ⟨buffer, [], none⟩
  else
    let buffer := buffer ++ pr.2
    let name := item.name
    let buffer := buffer ++ "typedef struct " ++ name ++ " \x7b\n"
    match item.node with
    | .ItemStruct vd parameterized =>
        if parameterized then
          ⟨buffer,
            [(item.span, "cheddar can not handle parameterized `#[repr(C)]` structs")],
            none⟩
        else
          match vd with
          | .Struct fields =>
              match structFieldsLoop buffer fields with
              | .inl res => res
              | .inr buffer => ⟨buffer ++ "\x7d " ++ name ++ ";\n\n", [], none⟩
          | .TupleOrUnit =>
              ⟨buffer ++ "\x7d " ++ name ++ ";\n\n",
                [(item.span, "cheddar can not handle unit or tuple `#[repr(C)]` structs")],
                none⟩
    | _ => ⟨buffer, [], some (item.span, "`parse_struct` called on wrong `Item_`")⟩

/-- The signature-emission tail of `parse_fn` (lines 329-347): docs, the
`<ret> <name>(` prefix, the argument loop, the two trailing pops, and the
closing `);\n\n`. -/
def fnSignatureTail (buffer docs output_type name : String) (inputs : List Arg) :
    EmitResult :=
  let buffer := buffer ++ docs ++ output_type ++ " " ++ name ++ "("
  let has_args := decide (0 < inputs.length)
  let buffer := inputs.foldl
    (fun b arg => b ++ rust_to_c arg.ty ++ " " ++ arg.pat ++ ", ") buffer
  let buffer := if has_args then strPop (strPop buffer) else buffer
  ⟨buffer ++ ");\n\n", [], none⟩

/-- Embedding of `parse_fn` (lines 296-351). -/
def parse_fn (buffer : String) (item : Item) : EmitResult :=
  let pr := parse_attr item.attrs check_no_mangle retrieve_docstring
  if pr.1 = false then ⟨buffer, [], none⟩
  else
    let name := item.name
    match item.node with
    | .ItemFn decl abi parameterized =>
        match abi with
        | .C | .Cdecl | .Stdcall | .Fastcall | .System =>
            if parameterized then
              ⟨buffer,
                [(item.span, "cheddar can not handle parameterized extern functions")],
                none⟩
            else
              match decl.output with
              | .NoReturn sp =>
                  ⟨buffer, [(sp, "panics across a C boundary are naughty!")], none⟩
              | .DefaultReturn =>
                  fnSignatureTail buffer pr.2 "void" name decl.inputs
              | .Return ty =>
                  fnSignatureTail buffer pr.2 (rust_to_c ty) name decl.inputs
        | .Rust => ⟨buffer, [], none⟩
    | _ => ⟨buffer, [], some (item.span, "`parse_fn` called on wrong `Item_`")⟩

/-- Embedding of `check_item` (lines 50-65): the visibility gate and the
dispatch on the item kind. -/
def check_item (buffer : String) (item : Item) : EmitResult :=
  match item.vis with
  | .Inherited => ⟨buffer, [], none⟩
  | .Public =>
      match item.node with
      | .ItemTy .. => parse_ty buffer item
      | .ItemEnum .. => parse_enum buffer item
      | .ItemStruct .. => parse_struct buffer item
      | .ItemFn .. => parse_fn buffer item
      | .ItemOther => ⟨buffer, [], none⟩

/-- The scanning loop: `check_item` over a declaration stream in order,
threading the buffer and accumulating diagnostics; a `span_fatal` aborts
the remaining scan. -/
def runScan (buffer : String) (diags : List Diag) :
    List Item → String × List Diag × Option Diag
  | [] => (buffer, diags, none)
  | it :: rest =>
      let r := check_item buffer it
      match r.fatal with
      | some f => (r.buffer, diags ++ r.errs, some f)
      | none => runScan r.buffer (diags ++ r.errs) rest

/-- The translator state (`CheddarPass`), with paths as plain strings. -/
structure CheddarPass where
  buffer : String
  dir : Option String
  file : Option String

/-- Modelled from the Rust standard library `Path::file_stem` on bare
file names: `none` on the empty name, the whole name if no `.` occurs
past the first character, otherwise the portion before the final `.`. -/
def file_stem (name : String) : Option String :=
  match name.data with
  | [] => none
  | c :: rest =>
      if rest.contains '.' then
        some (String.mk ((c :: rest).take
          ((c :: rest).length - 1 - ((c :: rest).reverse.indexOf '.'))))
      else some (String.mk (c :: rest))

/-- Modelled from the Rust standard library `Path::join` on plain
strings. -/
def joinPath (dir file : String) : String :=
  if dir = "" then file else dir ++ "/" ++ file

/-- The include-guard text (lines 85-93), with the guard token derived
from the output file's stem, defaulting to `default`. -/
def includeGuardText (file : String) : String :=
  let stem := (file_stem file).getD "default"
  "#ifndef cheddar_gen_" ++ stem ++ "_h\n#define cheddar_gen_" ++ stem ++ "_h\n\n"

/-- The `extern \"C\"` opener (line 95). -/
def externOpenText : String := "#ifdef __cplusplus\nextern \"C\" \x7b\n#endif\n\n"

/-- The fixed includes (line 100). -/
def includesText : String := "#include <stdint.h>\n#include <stdbool.h>\n\n"

/-- The closing lines (line 110). -/
def epilogueText : String := "#ifdef __cplusplus\n\x7d\n#endif\n\n#endif"

/-- Embedding of `Drop for CheddarPass` (lines 68-115) against an I/O
oracle: `createRes` is the error of `File::create` (if any) and
`writeRes k` the error of the `k`-th `write!` call (if any).  Returns
the text actually written to the file and the error lines printed. -/
def cheddarDrop (pass : CheddarPass) (createRes : Option String)
    (writeRes : Nat → Option String) : String × List String :=
  let dir := pass.dir.getD ""
  let file := pass.file.getD "cheddar.h"
  let header_path := joinPath dir file
  match createRes with
  | some e => ("", ["Error: could not open " ++ header_path ++ ": " ++ e])
  | none =>
    let w0 := includeGuardText file
    match writeRes 0 with
    | some e => ("", ["Error: could not write include guard to header: " ++ e])
    | none =>
      match writeRes 1 with
      | some e => (w0, ["Error: could not write C++ extern guard to header: " ++ e])
      | none =>
        match writeRes 2 with
        | some e => (w0 ++ externOpenText,
            ["Error: could not write includes to header: " ++ e])
        | none =>
          match writeRes 3 with
          | some e => (w0 ++ externOpenText ++ includesText,
              ["Error: could not write buffer to header: " ++ e])
          | none =>
            match writeRes 4 with
            | some e => (w0 ++ externOpenText ++ includesText ++ pass.buffer,
                ["Error: could not write epilogue to header: " ++ e])
            | none => (w0 ++ externOpenText ++ includesText ++ pass.buffer ++
                epilogueText, [])

/-- Rust `str::starts_with` on strings. -/
def starts_with (s p : String) : Bool :=
  decide (s.data.take p.data.length = p.data)

/-- The domain of the primitive table inside `rust_to_c`. -/
def primDomain : List String :=
  ["()", "f32", "f64", "i8", "i16", "i32", "i64", "isize",
   "u8", "u16", "u32", "u64", "usize"]

/-- Concatenation of a list of strings, in order. -/
def concatTexts : List String → String
  | [] => ""
  | s :: rest => s ++ concatTexts rest

/-- A pointer marker of Rust type syntax: `*mut` or `*const`. -/
inductive PtrMarker
  | Mut
  | Const
deriving DecidableEq

/-- The literal text of a pointer marker. -/
def markerText : PtrMarker → String
  | .Mut => "*mut"
  | .Const => "*const"

/-- Spell a type-syntax string: each marker followed by its (whitespace)
separator, applied to a base type. -/
def spellPtrType : List (PtrMarker × String) → String → String
  | [], base => base
  | (m, w) :: rest, base => markerText m ++ (w ++ spellPtrType rest base)

/-- The text `const ` repeated `n` times. -/
def constPrefix : Nat → String
  | 0 => ""
  | n + 1 => "const " ++ constPrefix n

/-- The text `*` repeated `n` times. -/
def starsSuffix : Nat → String
  | 0 => ""
  | n + 1 => starsSuffix n ++ "*"

/-- The number of `*const` markers in a marker list. -/
def countConst : List (PtrMarker × String) → Nat
  | [] => 0
  | (PtrMarker.Const, _) :: rest => countConst rest + 1
  | (PtrMarker.Mut, _) :: rest => countConst rest

/-- The text the enum-variant loop appends for a run of unit variants. -/
def variantText : List Variant → String
  | [] => ""
  | v :: rest =>
      (parse_attr v.attrs (fun _ => true) retrieve_docstring).2 ++
        "\t" ++ v.rendered ++ ",\n" ++ variantText rest

/-- The text the argument loop of `parse_fn` appends. -/
def argsText : List Arg → String
  | [] => ""
  | a :: rest => rust_to_c a.ty ++ " " ++ a.pat ++ ", " ++ argsText rest

/-- The C-style comma-separated parameter list of `parse_fn`: what is
left after the two trailing pops remove the final `, `. -/
def argsJoined : List Arg → String
  | [] => ""
  | a :: [] => rust_to_c a.ty ++ " " ++ a.pat
  | a :: b :: rest => rust_to_c a.ty ++ " " ++ a.pat ++ ", " ++ argsJoined (b :: rest)

/-- Prepend a string to the buffer component of an emitter result. -/
def liftBuf (b : String) (r : EmitResult) : EmitResult :=
  ⟨b ++ r.buffer, r.errs, r.fatal⟩

/-- Prepend a string to the buffer threaded through a loop result. -/
def liftSum (b : String) : Sum EmitResult String → Sum EmitResult String
  | .inl r => .inl (liftBuf b r)
  | .inr s => .inr (b ++ s)

theorem strData_append (a b : String) : (a ++ b).data = a.data ++ b.data := by
  cases a; cases b; rfl

theorem strExt {s t : String} (h : s.data = t.data) : s = t := by
  cases s; cases t; exact congrArg String.mk h

theorem strData_ne_nil {s : String} (h : s ≠ "") : s.data ≠ [] := by
  intro hd
  exact h (strExt (by simpa using hd))

theorem parse_attr_loop (check : Attribute → Bool) (retrieve : Attribute → String) :
    ∀ (l : List Attribute) (b : Bool) (s : String),
      l.foldl
        (fun acc attr => ((if acc.1 then acc.1 else check attr), acc.2 ++ retrieve attr))
        (b, s)
      = (b || l.any check, s ++ concatTexts (l.map retrieve)) := by
  intro l
  induction l with
  | nil =>
    intro b s
    simp [concatTexts]
  | cons a l ih =>
    intro b s
    simp only [List.foldl_cons, List.any_cons, List.map_cons, concatTexts]
    rw [ih]
    cases b <;> simp [String.append_assoc]

theorem parse_attr_eq (attrs : List Attribute) (check : Attribute → Bool)
    (retrieve : Attribute → String) :
    parse_attr attrs check retrieve =
      (attrs.any check, concatTexts (attrs.map retrieve)) := by
  unfold parse_attr
  rw [parse_attr_loop]
  simp

theorem trimLeft_ws_append (w cs : List Char)
    (hw : ∀ c ∈ w, c.isWhitespace = true) :
    trimLeft (w ++ cs) = trimLeft cs := by
  induction w with
  | nil => rfl
  | cons c w ih =>
    have hc : c.isWhitespace = true := hw c (List.mem_cons_self c w)
    simp only [List.cons_append, trimLeft, hc, if_true]
    exact ih fun d hd => hw d (List.mem_cons_of_mem c hd)

theorem trimLeft_cons_not_ws (c : Char) (cs : List Char)
    (hc : c.isWhitespace = false) : trimLeft (c :: cs) = c :: cs := by
  simp [trimLeft, hc]

theorem trimLeft_self_head {l : List Char} (h : trimLeft l = l) (hne : l ≠ []) :
    ∃ c t, l = c :: t ∧ c.isWhitespace = false := by
  cases l with
  | nil => exact absurd rfl hne
  | cons c t =>
    by_cases hc : c.isWhitespace
    · exfalso
      simp only [trimLeft, hc, if_true] at h
      have hlen := congrArg List.length h
      have := trimLeft_length_le t
      simp at hlen
      omega
    · exact ⟨c, t, rfl, by simpa using hc⟩

theorem rustTrim_ws_append (w cs : List Char)
    (hw : ∀ c ∈ w, c.isWhitespace = true)
    (h1 : trimLeft cs = cs)
    (h2 : trimLeft cs.reverse = cs.reverse) :
    rustTrim (w ++ cs) = cs := by
  unfold rustTrim
  rw [trimLeft_ws_append w cs hw, h1, h2, List.reverse_reverse]


theorem mutMarker_data : ("*mut" : String).data = '*' :: 'm' :: 'u' :: 't' :: [] := rfl

theorem constMarker_data :
    ("*const" : String).data = '*' :: 'c' :: 'o' :: 'n' :: 's' :: 't' :: [] := rfl

theorem rust_to_c_mut_step (typ : String) (h : typ.data.take 4 = "*mut".data) :
    rust_to_c typ = rust_to_c (String.mk (rustTrim (typ.data.drop 4))) ++ "*" := by
  rw [rust_to_c, dif_pos h]

theorem rust_to_c_const_step (typ : String)
    (hm : ¬ typ.data.take 4 = "*mut".data)
    (h : typ.data.take 6 = "*const".data) :
    rust_to_c typ = "const " ++ rust_to_c (String.mk (rustTrim (typ.data.drop 6))) ++ "*" := by
  rw [rust_to_c, dif_neg hm, dif_pos h]

theorem rust_to_c_prim (typ : String)
    (hm : ¬ typ.data.take 4 = "*mut".data)
    (hc : ¬ typ.data.take 6 = "*const".data)
    (hdom : typ ∉ primDomain) :
    rust_to_c typ = typ := by
  rw [rust_to_c, dif_neg hm, dif_neg hc]
  simp only [primDomain, List.mem_cons, not_or, List.not_mem_nil] at hdom
  obtain ⟨h1, h2, h3, h4, h5, h6, h7, h8, h9, h10, h11, h12, h13, -⟩ := hdom
  rw [if_neg h1, if_neg h2, if_neg h3, if_neg h4, if_neg h5, if_neg h6, if_neg h7,
    if_neg h8, if_neg h9, if_neg h10, if_neg h11, if_neg h12, if_neg h13]

theorem starts_with_false_take (s p : String) (h : starts_with s p = false) :
    ¬ s.data.take p.data.length = p.data := of_decide_eq_false h

theorem rust_to_c_pass_through (s : String)
    (hm : starts_with s "*mut" = false) (hc : starts_with s "*const" = false)
    (hdom : s ∉ primDomain) : rust_to_c s = s :=
  rust_to_c_prim s (starts_with_false_take s "*mut" hm)
    (starts_with_false_take s "*const" hc) hdom

theorem spell_trimLeft (rest : List (PtrMarker × String)) (base : String)
    (hb1 : trimLeft base.data = base.data) :
    trimLeft (spellPtrType rest base).data = (spellPtrType rest base).data := by
  cases rest with
  | nil => simpa [spellPtrType] using hb1
  | cons p rest =>
    obtain ⟨m, w⟩ := p
    cases m with
    | Mut =>
      simp only [spellPtrType, markerText, strData_append, mutMarker_data,
        List.cons_append, List.nil_append]
      exact trimLeft_cons_not_ws _ _ (by decide)
    | Const =>
      simp only [spellPtrType, markerText, strData_append, constMarker_data,
        List.cons_append, List.nil_append]
      exact trimLeft_cons_not_ws _ _ (by decide)

theorem spell_data_split (ms : List (PtrMarker × String)) (base : String) :
    ∃ junk, (spellPtrType ms base).data = junk ++ base.data := by
  induction ms with
  | nil => exact ⟨[], rfl⟩
  | cons p rest ih =>
    obtain ⟨m, w⟩ := p
    obtain ⟨junk, hj⟩ := ih
    exact ⟨(markerText m).data ++ (w.data ++ junk), by
      simp [spellPtrType, strData_append, hj, List.append_assoc]⟩

theorem spell_trimRight (ms : List (PtrMarker × String)) (base : String)
    (hbn : base ≠ "")
    (hb2 : trimLeft base.data.reverse = base.data.reverse) :
    trimLeft (spellPtrType ms base).data.reverse = (spellPtrType ms base).data.reverse := by
  obtain ⟨junk, hj⟩ := spell_data_split ms base
  obtain ⟨c, t, hct, hcw⟩ := trimLeft_self_head hb2 (by
    simpa using strData_ne_nil hbn)
  rw [hj, List.reverse_append, hct, List.cons_append]
  exact trimLeft_cons_not_ws c (t ++ junk.reverse) hcw

theorem rust_to_c_spell (ms : List (PtrMarker × String)) (base : String)
    (hws : ∀ p ∈ ms, ∀ c ∈ (p.2 : String).data, c.isWhitespace = true)
    (hb1 : trimLeft base.data = base.data)
    (hb2 : trimLeft base.data.reverse = base.data.reverse)
    (hbn : base ≠ "") :
    rust_to_c (spellPtrType ms base) =
      constPrefix (countConst ms) ++ rust_to_c base ++ starsSuffix ms.length := by
  induction ms with
  | nil =>
    simp [spellPtrType, constPrefix, starsSuffix, countConst]
  | cons p rest ih =>
    obtain ⟨m, w⟩ := p
    have hwm : ∀ c ∈ w.data, c.isWhitespace = true := by
      intro c hc
      exact hws (m, w) (List.mem_cons_self _ _) c hc
    have hrest := ih (fun p hp c hc => hws p (List.mem_cons_of_mem _ hp) c hc)
    have htL := spell_trimLeft rest base hb1
    have htR := spell_trimRight rest base hbn hb2
    cases m with
    | Mut =>
      have hsd : (spellPtrType ((PtrMarker.Mut, w) :: rest) base).data
          = ("*mut" : String).data ++ (w.data ++ (spellPtrType rest base).data) := by
        simp [spellPtrType, markerText, strData_append]
      have htake : (spellPtrType ((PtrMarker.Mut, w) :: rest) base).data.take 4
          = "*mut".data := by
        rw [hsd]
        exact List.take_left' (by rfl)
      have hdrop : (spellPtrType ((PtrMarker.Mut, w) :: rest) base).data.drop 4
          = w.data ++ (spellPtrType rest base).data := by
        rw [hsd]
        exact List.drop_left' (by rfl)
      have harg : String.mk (rustTrim
            ((spellPtrType ((PtrMarker.Mut, w) :: rest) base).data.drop 4))
          = spellPtrType rest base := by
        rw [hdrop, rustTrim_ws_append _ _ hwm htL htR]
      rw [rust_to_c_mut_step _ htake, harg, hrest]
      simp [starsSuffix, countConst, String.append_assoc]
    | Const =>
      have hsd : (spellPtrType ((PtrMarker.Const, w) :: rest) base).data
          = ("*const" : String).data ++ (w.data ++ (spellPtrType rest base).data) := by
        simp [spellPtrType, markerText, strData_append]
      have hnot4 : ¬ (spellPtrType ((PtrMarker.Const, w) :: rest) base).data.take 4
          = "*mut".data := by
        rw [hsd, List.take_append_eq_append_take,
          show (4 - ("*const" : String).data.length) = 0 from rfl, List.take_zero,
          List.append_nil]
        decide
      have htake : (spellPtrType ((PtrMarker.Const, w) :: rest) base).data.take 6
          = "*const".data := by
        rw [hsd]
        exact List.take_left' (by rfl)
      have hdrop : (spellPtrType ((PtrMarker.Const, w) :: rest) base).data.drop 6
          = w.data ++ (spellPtrType rest base).data := by
        rw [hsd]
        exact List.drop_left' (by rfl)
      have harg : String.mk (rustTrim
            ((spellPtrType ((PtrMarker.Const, w) :: rest) base).data.drop 6))
          = spellPtrType rest base := by
        rw [hdrop, rustTrim_ws_append _ _ hwm htL htR]
      rw [rust_to_c_const_step _ hnot4 htake, harg, hrest]
      simp [starsSuffix, countConst, constPrefix, String.append_assoc]


theorem argsText_eq_joined (l : List Arg) (h : l ≠ []) :
    argsText l = argsJoined l ++ ", " := by
  induction l with
  | nil => exact absurd rfl h
  | cons a l ih =>
    cases l with
    | nil =>
      simp [argsText, argsJoined, String.append_empty, String.append_assoc]
    | cons b l2 =>
      have h1 : argsText (a :: b :: l2)
          = rust_to_c a.ty ++ " " ++ a.pat ++ ", " ++ argsText (b :: l2) := rfl
      have h2 : argsJoined (a :: b :: l2)
          = rust_to_c a.ty ++ " " ++ a.pat ++ ", " ++ argsJoined (b :: l2) := rfl
      rw [h1, ih (by simp), h2]
      simp [String.append_assoc]

theorem strPop_mk (l : List Char) : strPop (String.mk l) = String.mk l.dropLast := rfl

theorem strPop_strPop_comma (x : String) : strPop (strPop (x ++ ", ")) = x := by
  have h1 : (x ++ ", ").data = (x.data ++ [',']) ++ [' '] := by
    rw [strData_append, List.append_assoc]
    exact congrArg (fun l => x.data ++ l) (by rfl)
  have h2 : strPop (x ++ ", ") = String.mk (x.data ++ [',']) := by
    show String.mk ((x ++ ", ").data.dropLast) = _
    rw [h1, List.dropLast_concat]
  rw [h2, strPop_mk, List.dropLast_concat]

theorem fnFold_eq (l : List Arg) : ∀ z : String,
    l.foldl (fun b arg => b ++ rust_to_c arg.ty ++ " " ++ arg.pat ++ ", ") z
      = z ++ argsText l := by
  induction l with
  | nil => intro z; simp [argsText]
  | cons a l ih =>
    intro z
    simp only [List.foldl_cons, argsText]
    rw [ih]
    simp [String.append_assoc]

theorem fnSignatureTail_eq_nil (buffer docs ot name : String) :
    fnSignatureTail buffer docs ot name [] =
      ⟨buffer ++ docs ++ ot ++ " " ++ name ++ "(" ++ ");\n\n", [], none⟩ := rfl

theorem fnSignatureTail_eq_cons (buffer docs ot name : String) (a : Arg) (rest : List Arg) :
    fnSignatureTail buffer docs ot name (a :: rest) =
      ⟨buffer ++ docs ++ ot ++ " " ++ name ++ "(" ++ argsJoined (a :: rest) ++ ");\n\n",
        [], none⟩ := by
  simp only [fnSignatureTail]
  rw [if_pos (by simp), fnFold_eq, argsText_eq_joined _ (by simp),
    ← String.append_assoc, strPop_strPop_comma]

theorem fnSignatureTail_last (buffer docs ot name : String) (inputs : List Arg) :
    ∃ y, fnSignatureTail buffer docs ot name inputs = ⟨y ++ ");\n\n", [], none⟩ :=
  ⟨_, rfl⟩

theorem fnSignatureTail_append (b x docs ot name : String) (inputs : List Arg) :
    fnSignatureTail (b ++ x) docs ot name inputs
      = liftBuf b (fnSignatureTail x docs ot name inputs) := by
  cases inputs with
  | nil =>
    rw [fnSignatureTail_eq_nil, fnSignatureTail_eq_nil]
    simp [liftBuf, String.append_assoc]
  | cons a rest =>
    rw [fnSignatureTail_eq_cons, fnSignatureTail_eq_cons]
    simp [liftBuf, String.append_assoc]

theorem enumVariantsLoop_append (b : String) (vs : List Variant) :
    ∀ x : String, enumVariantsLoop (b ++ x) vs = liftSum b (enumVariantsLoop x vs) := by
  induction vs with
  | nil => intro x; simp [enumVariantsLoop, liftSum]
  | cons v rest ih =>
    intro x
    by_cases hu : v.isUnit
    · simp only [enumVariantsLoop, hu, if_true]
      have hb : (b ++ x) ++ (parse_attr v.attrs (fun _ => true) retrieve_docstring).2
            ++ "\t" ++ v.rendered ++ ",\n"
          = b ++ (x ++ (parse_attr v.attrs (fun _ => true) retrieve_docstring).2
            ++ "\t" ++ v.rendered ++ ",\n") := by
        simp [String.append_assoc]
      rw [hb]
      exact ih _
    · simp [enumVariantsLoop, hu, liftSum, liftBuf]

theorem structFieldsLoop_append (b : String) (fs : List StructField) :
    ∀ x : String, structFieldsLoop (b ++ x) fs = liftSum b (structFieldsLoop x fs) := by
  induction fs with
  | nil => intro x; simp [structFieldsLoop, liftSum]
  | cons f rest ih =>
    intro x
    cases hid : f.ident with
    | none =>
      simp [structFieldsLoop, hid, liftSum, liftBuf, String.append_assoc]
    | some n =>
      simp only [structFieldsLoop, hid]
      have hb : (b ++ x) ++ (parse_attr f.attrs (fun _ => true) retrieve_docstring).2
            ++ "\t" ++ rust_to_c f.ty ++ " " ++ n ++ ";\n"
          = b ++ (x ++ (parse_attr f.attrs (fun _ => true) retrieve_docstring).2
            ++ "\t" ++ rust_to_c f.ty ++ " " ++ n ++ ";\n") := by
        simp [String.append_assoc]
      rw [hb]
      exact ih _


theorem parse_ty_append (b x : String) (it : Item) :
    parse_ty (b ++ x) it = liftBuf b (parse_ty x it) := by
  obtain ⟨name, vis, attrs, node, sp⟩ := it
  cases node with
  | ItemTy ty param =>
    cases param <;> simp [parse_ty, liftBuf, String.append_assoc]
  | ItemEnum vs param => simp [parse_ty, liftBuf]
  | ItemStruct vd param => simp [parse_ty, liftBuf]
  | ItemFn d a p => simp [parse_ty, liftBuf]
  | ItemOther => simp [parse_ty, liftBuf]

theorem parse_enum_append (b x : String) (it : Item) :
    parse_enum (b ++ x) it = liftBuf b (parse_enum x it) := by
  obtain ⟨name, vis, attrs, node, sp⟩ := it
  by_cases hpr : (parse_attr attrs check_repr_c retrieve_docstring).1 = false
  · simp [parse_enum, hpr, liftBuf]
  · cases node with
    | ItemEnum vs param =>
      cases param with
      | true => simp [parse_enum, if_neg hpr, liftBuf, String.append_assoc]
      | false =>
        simp only [parse_enum, if_neg hpr]
        have hassoc : (b ++ x) ++ (parse_attr attrs check_repr_c retrieve_docstring).2
              ++ "typedef enum " ++ name ++ " \x7b\n"
            = b ++ (x ++ (parse_attr attrs check_repr_c retrieve_docstring).2
              ++ "typedef enum " ++ name ++ " \x7b\n") := by
          simp [String.append_assoc]
        rw [hassoc, enumVariantsLoop_append]
        cases hloop : enumVariantsLoop (x ++ (parse_attr attrs check_repr_c retrieve_docstring).2
            ++ "typedef enum " ++ name ++ " \x7b\n") vs with
        | inl r => simp [liftSum, liftBuf]
        | inr s => simp [liftSum, liftBuf, String.append_assoc]
    | ItemTy ty param => simp [parse_enum, if_neg hpr, liftBuf, String.append_assoc]
    | ItemStruct vd param => simp [parse_enum, if_neg hpr, liftBuf, String.append_assoc]
    | ItemFn d a p => simp [parse_enum, if_neg hpr, liftBuf, String.append_assoc]
    | ItemOther => simp [parse_enum, if_neg hpr, liftBuf, String.append_assoc]

theorem parse_struct_append (b x : String) (it : Item) :
    parse_struct (b ++ x) it = liftBuf b (parse_struct x it) := by
  obtain ⟨name, vis, attrs, node, sp⟩ := it
  by_cases hpr : (parse_attr attrs check_repr_c retrieve_docstring).1 = false
  · simp [parse_struct, hpr, liftBuf]
  · cases node with
    | ItemStruct vd param =>
      cases param with
      | true => simp [parse_struct, if_neg hpr, liftBuf, String.append_assoc]
      | false =>
        cases vd with
        | TupleOrUnit => simp [parse_struct, if_neg hpr, liftBuf, String.append_assoc]
        | Struct fields =>
          simp only [parse_struct, if_neg hpr]
          have hassoc : (b ++ x) ++ (parse_attr attrs check_repr_c retrieve_docstring).2
                ++ "typedef struct " ++ name ++ " \x7b\n"
              = b ++ (x ++ (parse_attr attrs check_repr_c retrieve_docstring).2
                ++ "typedef struct " ++ name ++ " \x7b\n") := by
            simp [String.append_assoc]
          rw [hassoc, structFieldsLoop_append]
          cases hloop : structFieldsLoop (x ++ (parse_attr attrs check_repr_c retrieve_docstring).2
              ++ "typedef struct " ++ name ++ " \x7b\n") fields with
          | inl r => simp [liftSum, liftBuf]
          | inr s => simp [liftSum, liftBuf, String.append_assoc]
    | ItemTy ty param => simp [parse_struct, if_neg hpr, liftBuf, String.append_assoc]
    | ItemEnum vs param => simp [parse_struct, if_neg hpr, liftBuf, String.append_assoc]
    | ItemFn d a p => simp [parse_struct, if_neg hpr, liftBuf, String.append_assoc]
    | ItemOther => simp [parse_struct, if_neg hpr, liftBuf, String.append_assoc]

theorem parse_fn_append (b x : String) (it : Item) :
    parse_fn (b ++ x) it = liftBuf b (parse_fn x it) := by
  obtain ⟨name, vis, attrs, node, sp⟩ := it
  by_cases hpr : (parse_attr attrs check_no_mangle retrieve_docstring).1 = false
  · simp [parse_fn, hpr, liftBuf]
  · cases node with
    | ItemFn decl abi param =>
      obtain ⟨inputs, output⟩ := decl
      cases abi with
      | Rust => simp [parse_fn, if_neg hpr, liftBuf]
      | C | Cdecl | Stdcall | Fastcall | System =>
        cases param with
        | true => simp [parse_fn, if_neg hpr, liftBuf]
        | false =>
          cases output with
          | NoReturn rsp => simp [parse_fn, if_neg hpr, liftBuf]
          | DefaultReturn => simp [parse_fn, if_neg hpr, fnSignatureTail_append, liftBuf]
          | Return ty => simp [parse_fn, if_neg hpr, fnSignatureTail_append, liftBuf]
    | ItemTy ty param => simp [parse_fn, if_neg hpr, liftBuf]
    | ItemEnum vs param => simp [parse_fn, if_neg hpr, liftBuf]
    | ItemStruct vd param => simp [parse_fn, if_neg hpr, liftBuf]
    | ItemOther => simp [parse_fn, if_neg hpr, liftBuf]

theorem check_item_append (b x : String) (it : Item) :
    check_item (b ++ x) it = liftBuf b (check_item x it) := by
  obtain ⟨name, vis, attrs, node, sp⟩ := it
  cases vis with
  | Inherited => simp [check_item, liftBuf]
  | Public =>
    cases node with
    | ItemTy ty param =>
      simpa only [check_item] using parse_ty_append b x ⟨name, .Public, attrs, .ItemTy ty param, sp⟩
    | ItemEnum vs param =>
      simpa only [check_item] using parse_enum_append b x ⟨name, .Public, attrs, .ItemEnum vs param, sp⟩
    | ItemStruct vd param =>
      simpa only [check_item] using parse_struct_append b x ⟨name, .Public, attrs, .ItemStruct vd param, sp⟩
    | ItemFn d a p =>
      simpa only [check_item] using parse_fn_append b x ⟨name, .Public, attrs, .ItemFn d a p, sp⟩
    | ItemOther => simp [check_item, liftBuf]

theorem check_item_split (pre : String) (it : Item) :
    check_item pre it = liftBuf pre (check_item "" it) := by
  have h := check_item_append pre "" it
  rwa [String.append_empty] at h


theorem enumVariantsLoop_units (vs : List Variant) (h : ∀ v ∈ vs, v.isUnit = true) :
    ∀ b, enumVariantsLoop b vs = .inr (b ++ variantText vs) := by
  induction vs with
  | nil => intro b; simp [enumVariantsLoop, variantText]
  | cons v rest ih =>
    intro b
    have hv := h v (List.mem_cons_self v rest)
    simp only [enumVariantsLoop, hv, if_true]
    rw [ih (fun u hu => h u (List.mem_cons_of_mem v hu))]
    simp [variantText, String.append_assoc]

theorem enumVariantsLoop_stops (good : List Variant) (v : Variant) (rest : List Variant)
    (hg : ∀ u ∈ good, u.isUnit = true) (hv : v.isUnit = false) :
    ∀ b, enumVariantsLoop b (good ++ v :: rest) =
      .inl ⟨b ++ variantText good,
        [(v.span, "cheddar can not handle `#[repr(C)]` enums with non-unit variants")],
        none⟩ := by
  induction good with
  | nil =>
    intro b
    simp [enumVariantsLoop, hv, variantText]
  | cons u good ih =>
    intro b
    have hu := hg u (List.mem_cons_self u good)
    simp only [List.cons_append, enumVariantsLoop, hu, if_true]
    rw [List.append_eq, ih (fun w hw => hg w (List.mem_cons_of_mem u hw))]
    simp [variantText, String.append_assoc]

theorem enumVariantsLoop_inl_errs (vs : List Variant) :
    ∀ b r, enumVariantsLoop b vs = .inl r → r.errs ≠ [] := by
  induction vs with
  | nil => intro b r h; simp [enumVariantsLoop] at h
  | cons v rest ih =>
    intro b r h
    by_cases hu : v.isUnit
    · simp only [enumVariantsLoop, hu, if_true] at h
      exact ih _ _ h
    · simp only [enumVariantsLoop, hu, Bool.false_eq_true, if_false, Sum.inl.injEq] at h
      rw [← h]
      simp

theorem structFieldsLoop_inl_fatal (fs : List StructField) :
    ∀ b r, structFieldsLoop b fs = .inl r → r.fatal ≠ none := by
  induction fs with
  | nil => intro b r h; simp [structFieldsLoop] at h
  | cons f rest ih =>
    intro b r h
    cases hid : f.ident with
    | none =>
      simp only [structFieldsLoop, hid, Sum.inl.injEq] at h
      rw [← h]
      simp
    | some n =>
      simp only [structFieldsLoop, hid] at h
      exact ih _ _ h

theorem runScan_cons (buffer : String) (ds : List Diag) (it : Item) (rest : List Item)
    (h : (check_item buffer it).fatal = none) :
    runScan buffer ds (it :: rest)
      = runScan (check_item buffer it).buffer (ds ++ (check_item buffer it).errs) rest := by
  simp only [runScan, h]

theorem parse_enum_skip (b : String) (it : Item)
    (h : (parse_attr it.attrs check_repr_c retrieve_docstring).1 = false) :
    parse_enum b it = ⟨b, [], none⟩ := by
  unfold parse_enum
  simp [h]

theorem parse_struct_skip (b : String) (it : Item)
    (h : (parse_attr it.attrs check_repr_c retrieve_docstring).1 = false) :
    parse_struct b it = ⟨b, [], none⟩ := by
  unfold parse_struct
  simp [h]

theorem parse_fn_skip (b : String) (it : Item)
    (h : (parse_attr it.attrs check_no_mangle retrieve_docstring).1 = false) :
    parse_fn b it = ⟨b, [], none⟩ := by
  unfold parse_fn
  simp [h]

theorem parse_enum_param_err (b name : String) (vis : Visibility) (attrs : List Attribute)
    (vs : List Variant) (sp : Nat)
    (h : (parse_attr attrs check_repr_c retrieve_docstring).1 = true) :
    parse_enum b ⟨name, vis, attrs, .ItemEnum vs true, sp⟩ =
      ⟨b ++ (parse_attr attrs check_repr_c retrieve_docstring).2 ++
          "typedef enum " ++ name ++ " \x7b\n",
        [(sp, "cheddar can not handle parameterized `#[repr(C)]` enums")], none⟩ := by
  simp [parse_enum, h]

theorem parse_enum_nonunit_err (b name : String) (vis : Visibility) (attrs : List Attribute)
    (good : List Variant) (v : Variant) (rest : List Variant) (sp : Nat)
    (h : (parse_attr attrs check_repr_c retrieve_docstring).1 = true)
    (hg : ∀ u ∈ good, u.isUnit = true) (hv : v.isUnit = false) :
    parse_enum b ⟨name, vis, attrs, .ItemEnum (good ++ v :: rest) false, sp⟩ =
      ⟨b ++ (parse_attr attrs check_repr_c retrieve_docstring).2 ++
          "typedef enum " ++ name ++ " \x7b\n" ++ variantText good,
        [(v.span, "cheddar can not handle `#[repr(C)]` enums with non-unit variants")],
        none⟩ := by
  simp only [parse_enum, h]
  rw [enumVariantsLoop_stops good v rest hg hv]
  simp [h]

theorem parse_enum_ok (b name : String) (vis : Visibility) (attrs : List Attribute)
    (vs : List Variant) (sp : Nat)
    (h : (parse_attr attrs check_repr_c retrieve_docstring).1 = true)
    (hg : ∀ u ∈ vs, u.isUnit = true) :
    parse_enum b ⟨name, vis, attrs, .ItemEnum vs false, sp⟩ =
      ⟨b ++ (parse_attr attrs check_repr_c retrieve_docstring).2 ++
          "typedef enum " ++ name ++ " \x7b\n" ++ variantText vs ++
          "\x7d " ++ name ++ ";\n\n",
        [], none⟩ := by
  simp only [parse_enum, h]
  rw [enumVariantsLoop_units vs hg]
  simp [h]

theorem parse_struct_param_err (b name : String) (vis : Visibility) (attrs : List Attribute)
    (vd : VariantData) (sp : Nat)
    (h : (parse_attr attrs check_repr_c retrieve_docstring).1 = true) :
    parse_struct b ⟨name, vis, attrs, .ItemStruct vd true, sp⟩ =
      ⟨b ++ (parse_attr attrs check_repr_c retrieve_docstring).2 ++
          "typedef struct " ++ name ++ " \x7b\n",
        [(sp, "cheddar can not handle parameterized `#[repr(C)]` structs")], none⟩ := by
  simp [parse_struct, h]

theorem parse_struct_tuple_err (b name : String) (vis : Visibility) (attrs : List Attribute)
    (sp : Nat)
    (h : (parse_attr attrs check_repr_c retrieve_docstring).1 = true) :
    parse_struct b ⟨name, vis, attrs, .ItemStruct .TupleOrUnit false, sp⟩ =
      ⟨b ++ (parse_attr attrs check_repr_c retrieve_docstring).2 ++
          "typedef struct " ++ name ++ " \x7b\n" ++ "\x7d " ++ name ++ ";\n\n",
        [(sp, "cheddar can not handle unit or tuple `#[repr(C)]` structs")], none⟩ := by
  simp [parse_struct, h, String.append_assoc]

theorem parse_fn_noreturn (b name : String) (vis : Visibility) (attrs : List Attribute)
    (inputs : List Arg) (rsp : Nat) (abi : Abi) (sp : Nat)
    (h : (parse_attr attrs check_no_mangle retrieve_docstring).1 = true)
    (habi : abi ≠ Abi.Rust) :
    parse_fn b ⟨name, vis, attrs, .ItemFn ⟨inputs, .NoReturn rsp⟩ abi false, sp⟩ =
      ⟨b, [(rsp, "panics across a C boundary are naughty!")], none⟩ := by
  cases abi with
  | Rust => exact absurd rfl habi
  | C => simp [parse_fn, h]
  | Cdecl => simp [parse_fn, h]
  | Stdcall => simp [parse_fn, h]
  | Fastcall => simp [parse_fn, h]
  | System => simp [parse_fn, h]


/-- C4: for a public, non-generic `#[repr(C)]` tuple or unit struct,
`parse_struct` reports the error but does not return early: the buffer
still receives the doc text, the `typedef struct <name> {\n` line and
the closing `} <name>;\n\n`, so the header gains an empty, field-less
struct definition. -/
theorem c4_tuple_unit_struct_emitted (pre name : String) (attrs : List Attribute) (sp : Nat)
    (h : (parse_attr attrs check_repr_c retrieve_docstring).1 = true) :
    parse_struct pre ⟨name, .Public, attrs, .ItemStruct .TupleOrUnit false, sp⟩ =
      ⟨pre ++ (parse_attr attrs check_repr_c retrieve_docstring).2 ++
          "typedef struct " ++ name ++ " \x7b\n" ++ "\x7d " ++ name ++ ";\n\n",
        [(sp, "cheddar can not handle unit or tuple `#[repr(C)]` structs")], none⟩ :=
  parse_struct_tuple_err pre name .Public attrs sp h

/-- Witness for C4 at a concrete `#[repr(C)]` unit struct `T`. -/
theorem c4_tuple_unit_struct_emitted_witness :
    (parse_attr [⟨.MetaList "repr" [.MetaWord "C"]⟩] check_repr_c retrieve_docstring).1
        = true ∧
    parse_struct ""
        ⟨"T", .Public, [⟨.MetaList "repr" [.MetaWord "C"]⟩], .ItemStruct .TupleOrUnit false, 9⟩
      = ⟨"" ++ (parse_attr [⟨.MetaList "repr" [.MetaWord "C"]⟩] check_repr_c
            retrieve_docstring).2 ++
          "typedef struct " ++ "T" ++ " \x7b\n" ++ "\x7d " ++ "T" ++ ";\n\n",
        [(9, "cheddar can not handle unit or tuple `#[repr(C)]` structs")], none⟩ :=
  ⟨by decide,
   c4_tuple_unit_struct_emitted "" "T" [⟨.MetaList "repr" [.MetaWord "C"]⟩] 9 (by decide)⟩

/-- C9: a public struct or enum whose attribute list contains no
`#[repr(C)]` attribute produces zero buffer text and zero diagnostics. -/
theorem c9_missing_repr_silent_skip (pre name : String) (attrs : List Attribute) (sp : Nat)
    (h : attrs.any check_repr_c = false) :
    (∀ vs param, check_item pre ⟨name, .Public, attrs, .ItemEnum vs param, sp⟩
        = ⟨pre, [], none⟩) ∧
    (∀ vd param, check_item pre ⟨name, .Public, attrs, .ItemStruct vd param, sp⟩
        = ⟨pre, [], none⟩) := by
  have hflag : (parse_attr attrs check_repr_c retrieve_docstring).1 = false := by
    rw [parse_attr_eq]
    exact h
  constructor
  · intro vs param
    simp only [check_item]
    exact parse_enum_skip pre ⟨name, .Public, attrs, .ItemEnum vs param, sp⟩ hflag
  · intro vd param
    simp only [check_item]
    exact parse_struct_skip pre ⟨name, .Public, attrs, .ItemStruct vd param, sp⟩ hflag

/-- Witness for C9 at concrete enum and struct declarations carrying only
a `no_mangle` attribute. -/
theorem c9_missing_repr_silent_skip_witness :
    ([⟨.MetaWord "no_mangle"⟩] : List Attribute).any check_repr_c = false ∧
    check_item "B" ⟨"E", .Public, [⟨.MetaWord "no_mangle"⟩], .ItemEnum [] false, 1⟩
      = ⟨"B", [], none⟩ ∧
    check_item "B" ⟨"S", .Public, [⟨.MetaWord "no_mangle"⟩], .ItemStruct .TupleOrUnit false, 2⟩
      = ⟨"B", [], none⟩ :=
  ⟨by decide,
   (c9_missing_repr_silent_skip "B" "E" [⟨.MetaWord "no_mangle"⟩] 1 (by decide)).1 [] false,
   (c9_missing_repr_silent_skip "B" "S" [⟨.MetaWord "no_mangle"⟩] 2 (by decide)).2
     .TupleOrUnit false⟩

/-- C7: `parse_attr` makes one pass returning the disjunction of the
check predicate (latched, never reset) and the concatenation of the
retrieved texts in encounter order; `retrieve_docstring` maps a doc
attribute with a literal string to that string plus one newline and
every other attribute to the empty string. -/
theorem c7_parse_attr_scan (attrs : List Attribute) (check : Attribute → Bool)
    (retrieve : Attribute → String) :
    parse_attr attrs check retrieve = (attrs.any check, concatTexts (attrs.map retrieve)) ∧
    (∀ s, retrieve_docstring ⟨.MetaNameValue "doc" (.LitStr s)⟩ = s ++ "\n") ∧
    (∀ a : Attribute, (∀ s, a.value ≠ .MetaNameValue "doc" (.LitStr s)) →
      retrieve_docstring a = "") := by
  refine ⟨parse_attr_eq attrs check retrieve, fun s => by simp [retrieve_docstring], ?_⟩
  intro a ha
  cases hv : a.value with
  | MetaWord n => simp [retrieve_docstring, hv]
  | MetaList n ws => simp [retrieve_docstring, hv]
  | MetaNameValue n val =>
    cases val with
    | LitOther => simp [retrieve_docstring, hv]
    | LitStr s =>
      by_cases hn : n = "doc"
      · subst hn
        exact absurd hv (ha s)
      · simp [retrieve_docstring, hv, hn]

/-- Witness for C7 at a concrete attribute list. -/
theorem c7_parse_attr_scan_witness :
    parse_attr [⟨.MetaNameValue "doc" (.LitStr " hi")⟩, ⟨.MetaWord "no_mangle"⟩]
        check_no_mangle retrieve_docstring
      = (true, " hi\n") ∧
    retrieve_docstring ⟨.MetaNameValue "doc" (.LitStr " hi")⟩ = " hi" ++ "\n" ∧
    retrieve_docstring ⟨.MetaWord "no_mangle"⟩ = "" := by
  have h := c7_parse_attr_scan
    [⟨.MetaNameValue "doc" (.LitStr " hi")⟩, ⟨.MetaWord "no_mangle"⟩]
    check_no_mangle retrieve_docstring
  refine ⟨?_, h.2.1 " hi",
    h.2.2 ⟨.MetaWord "no_mangle"⟩ (fun s hs => MetaItem.noConfusion hs)⟩
  rw [h.1]
  decide

/-- C8: a public `#[no_mangle]` extern-C function with no generics, no
parameters and no explicit return type emits exactly its doc text
followed by `void <name>();\n\n`. -/
theorem c8_void_fn_signature (pre name : String) (attrs : List Attribute) (sp : Nat)
    (h : (parse_attr attrs check_no_mangle retrieve_docstring).1 = true) :
    check_item pre ⟨name, .Public, attrs, .ItemFn ⟨[], .DefaultReturn⟩ .C false, sp⟩ =
      ⟨pre ++ (parse_attr attrs check_no_mangle retrieve_docstring).2 ++
          "void " ++ name ++ "();\n\n",
        [], none⟩ := by
  have hne : ¬ (parse_attr attrs check_no_mangle retrieve_docstring).1 = false := by
    simp [h]
  simp only [check_item, parse_fn, if_neg hne]
  rw [fnSignatureTail_eq_nil]
  refine congrArg (fun b => EmitResult.mk b [] none) ?_
  rw [String.append_assoc (pre ++ (parse_attr attrs check_no_mangle retrieve_docstring).2)
    "void" " "]
  rw [String.append_assoc _ "(" ");\n\n"]
  rw [show ("void" ++ " " : String) = "void " from rfl,
    show ("(" ++ ");\n\n" : String) = "();\n\n" from rfl]

/-- Witness for C8 at a concrete function `f`. -/
theorem c8_void_fn_signature_witness :
    (parse_attr [⟨.MetaWord "no_mangle"⟩] check_no_mangle retrieve_docstring).1 = true ∧
    check_item "X" ⟨"f", .Public, [⟨.MetaWord "no_mangle"⟩],
        .ItemFn ⟨[], .DefaultReturn⟩ .C false, 2⟩
      = ⟨"X" ++ (parse_attr [⟨.MetaWord "no_mangle"⟩] check_no_mangle
            retrieve_docstring).2 ++ "void " ++ "f" ++ "();\n\n",
        [], none⟩ :=
  ⟨by decide, c8_void_fn_signature "X" "f" [⟨.MetaWord "no_mangle"⟩] 2 (by decide)⟩

/-- C2 counterexample: a never-returning `no_mangle` extern-C function is
reported by `span_err` only, and the scan continues: the following
declaration is still translated and no fatal abort occurs, refuting
`aborts the whole run`. -/
theorem c2_counterexample :
    runScan "" []
        [⟨"f", .Public, [⟨.MetaWord "no_mangle"⟩], .ItemFn ⟨[], .NoReturn 5⟩ .C false, 4⟩,
         ⟨"g", .Public, [⟨.MetaWord "no_mangle"⟩], .ItemFn ⟨[], .DefaultReturn⟩ .C false, 9⟩]
      = ("void g();\n\n", [(5, "panics across a C boundary are naughty!")], none) := by
  decide

/-- C2 amended: the never-returning function is reported (with the span
of its return type), nothing is emitted for it, and scanning continues
with the subsequent declarations instead of aborting the run. -/
theorem c2_noreturn_reported_scan_continues (pre name : String) (attrs : List Attribute)
    (inputs : List Arg) (rsp sp : Nat) (abi : Abi)
    (h : (parse_attr attrs check_no_mangle retrieve_docstring).1 = true)
    (habi : abi ≠ Abi.Rust) :
    check_item pre ⟨name, .Public, attrs, .ItemFn ⟨inputs, .NoReturn rsp⟩ abi false, sp⟩ =
      ⟨pre, [(rsp, "panics across a C boundary are naughty!")], none⟩ ∧
    ∀ ds rest, runScan pre ds
        (⟨name, .Public, attrs, .ItemFn ⟨inputs, .NoReturn rsp⟩ abi false, sp⟩ :: rest)
      = runScan pre (ds ++ [(rsp, "panics across a C boundary are naughty!")]) rest := by
  have hh : check_item pre
      ⟨name, .Public, attrs, .ItemFn ⟨inputs, .NoReturn rsp⟩ abi false, sp⟩ =
      ⟨pre, [(rsp, "panics across a C boundary are naughty!")], none⟩ := by
    simp only [check_item]
    exact parse_fn_noreturn pre name .Public attrs inputs rsp abi sp h habi
  refine ⟨hh, fun ds rest => ?_⟩
  rw [runScan_cons pre ds _ rest (by rw [hh])]
  rw [hh]

/-- Witness for C2 at a concrete never-returning function. -/
theorem c2_noreturn_reported_scan_continues_witness :
    check_item "B" ⟨"f", .Public, [⟨.MetaWord "no_mangle"⟩],
        .ItemFn ⟨[⟨"x", "i32"⟩], .NoReturn 7⟩ .System false, 1⟩
      = ⟨"B", [(7, "panics across a C boundary are naughty!")], none⟩ ∧
    runScan "B" []
        [⟨"f", .Public, [⟨.MetaWord "no_mangle"⟩],
          .ItemFn ⟨[⟨"x", "i32"⟩], .NoReturn 7⟩ .System false, 1⟩]
      = runScan "B" [(7, "panics across a C boundary are naughty!")] [] :=
  ⟨(c2_noreturn_reported_scan_continues "B" "f" [⟨.MetaWord "no_mangle"⟩]
      [⟨"x", "i32"⟩] 7 1 .System (by decide) (by decide)).1,
   by
    have h2 := (c2_noreturn_reported_scan_continues "B" "f" [⟨.MetaWord "no_mangle"⟩]
      [⟨"x", "i32"⟩] 7 1 .System (by decide) (by decide)).2 [] []
    simpa using h2⟩


/-- C1 counterexample: a public `#[repr(C)]` enum with generic parameters
is reported and dropped, yet the buffer does gain text for the failed
declaration (`typedef enum Foo {\n`), refuting `the output buffer gains
no text for the failed declaration`. -/
theorem c1_counterexample :
    (check_item ""
        ⟨"Foo", .Public, [⟨.MetaList "repr" [.MetaWord "C"]⟩], .ItemEnum [] true, 7⟩).buffer
      = "typedef enum Foo \x7b\n" ∧
    "typedef enum Foo \x7b\n" ≠ "" := by
  constructor
  · rfl
  · decide

/-- C1 amended: each representability failure of an eligible declaration
is reported with its source location as a non-fatal diagnostic, prior
buffer text is preserved as a prefix and scanning continues; however the
failed declaration leaks partial text: the doc text plus the opening
line (plus any variants already emitted), and a tuple/unit struct even
leaks a complete empty struct definition. -/
theorem c1_local_failure_leaks_text (pre name : String) (attrs : List Attribute) (sp : Nat)
    (h : (parse_attr attrs check_repr_c retrieve_docstring).1 = true) :
    (∀ vs, check_item pre ⟨name, .Public, attrs, .ItemEnum vs true, sp⟩ =
        ⟨pre ++ (parse_attr attrs check_repr_c retrieve_docstring).2 ++
            "typedef enum " ++ name ++ " \x7b\n",
          [(sp, "cheddar can not handle parameterized `#[repr(C)]` enums")], none⟩) ∧
    (∀ good v rest, (∀ u ∈ good, u.isUnit = true) → v.isUnit = false →
        check_item pre ⟨name, .Public, attrs, .ItemEnum (good ++ v :: rest) false, sp⟩ =
        ⟨pre ++ (parse_attr attrs check_repr_c retrieve_docstring).2 ++
            "typedef enum " ++ name ++ " \x7b\n" ++ variantText good,
          [(v.span, "cheddar can not handle `#[repr(C)]` enums with non-unit variants")],
          none⟩) ∧
    (∀ vd, check_item pre ⟨name, .Public, attrs, .ItemStruct vd true, sp⟩ =
        ⟨pre ++ (parse_attr attrs check_repr_c retrieve_docstring).2 ++
            "typedef struct " ++ name ++ " \x7b\n",
          [(sp, "cheddar can not handle parameterized `#[repr(C)]` structs")], none⟩) ∧
    (check_item pre ⟨name, .Public, attrs, .ItemStruct .TupleOrUnit false, sp⟩ =
        ⟨pre ++ (parse_attr attrs check_repr_c retrieve_docstring).2 ++
            "typedef struct " ++ name ++ " \x7b\n" ++ "\x7d " ++ name ++ ";\n\n",
          [(sp, "cheddar can not handle unit or tuple `#[repr(C)]` structs")], none⟩) ∧
    (∀ it ds rest, (check_item pre it).fatal = none →
        runScan pre ds (it :: rest)
          = runScan (check_item pre it).buffer (ds ++ (check_item pre it).errs) rest) := by
  refine ⟨fun vs => ?_, fun good v rest hg hv => ?_, fun vd => ?_, ?_,
    fun it ds rest hf => runScan_cons pre ds it rest hf⟩
  · simp only [check_item]
    exact parse_enum_param_err pre name .Public attrs vs sp h
  · simp only [check_item]
    exact parse_enum_nonunit_err pre name .Public attrs good v rest sp h hg hv
  · simp only [check_item]
    exact parse_struct_param_err pre name .Public attrs vd sp h
  · simp only [check_item]
    exact parse_struct_tuple_err pre name .Public attrs sp h

/-- Witness for C1 at a concrete generic `#[repr(C)]` enum. -/
theorem c1_local_failure_leaks_text_witness :
    (parse_attr [⟨.MetaList "repr" [.MetaWord "C"]⟩] check_repr_c retrieve_docstring).1
        = true ∧
    check_item "W"
        ⟨"G", .Public, [⟨.MetaList "repr" [.MetaWord "C"]⟩], .ItemEnum [] true, 4⟩
      = ⟨"W" ++ (parse_attr [⟨.MetaList "repr" [.MetaWord "C"]⟩] check_repr_c
            retrieve_docstring).2 ++ "typedef enum " ++ "G" ++ " \x7b\n",
          [(4, "cheddar can not handle parameterized `#[repr(C)]` enums")], none⟩ :=
  ⟨by decide,
   (c1_local_failure_leaks_text "W" "G" [⟨.MetaList "repr" [.MetaWord "C"]⟩] 4
     (by decide)).1 []⟩

/-- C6: `rust_to_c` is total; on inputs with no leading pointer marker it
is the fixed primitive table, and outside the table domain it is the
identity and hence idempotent. -/
theorem c6_type_mapper_total (s : String)
    (hm : starts_with s "*mut" = false) (hc : starts_with s "*const" = false)
    (hdom : s ∉ primDomain) :
    rust_to_c s = s ∧ rust_to_c (rust_to_c s) = s ∧
    rust_to_c "()" = "void" ∧ rust_to_c "f32" = "float" ∧ rust_to_c "f64" = "double" ∧
    rust_to_c "i8" = "int8_t" ∧ rust_to_c "i16" = "int16_t" ∧
    rust_to_c "i32" = "int32_t" ∧ rust_to_c "i64" = "int64_t" ∧
    rust_to_c "isize" = "intptr_t" ∧ rust_to_c "u8" = "uint8_t" ∧
    rust_to_c "u16" = "uint16_t" ∧ rust_to_c "u32" = "uint32_t" ∧
    rust_to_c "u64" = "uint64_t" ∧ rust_to_c "usize" = "uintptr_t" := by
  have hid := rust_to_c_pass_through s hm hc hdom
  refine ⟨hid, by rw [hid, hid], ?_, ?_, ?_, ?_, ?_, ?_, ?_, ?_, ?_, ?_, ?_, ?_, ?_⟩ <;>
    simp +decide [rust_to_c]

/-- Witness for C6 at the unrecognized identifier `MyStruct`. -/
theorem c6_type_mapper_total_witness :
    rust_to_c "MyStruct" = "MyStruct" ∧ rust_to_c (rust_to_c "MyStruct") = "MyStruct" :=
  ⟨(c6_type_mapper_total "MyStruct" (by decide) (by decide) (by decide)).1,
   (c6_type_mapper_total "MyStruct" (by decide) (by decide) (by decide)).2.1⟩

/-- C5 counterexample: `*const *mut i32` and `*mut *const i32` carry
`const` at different marker positions yet map to the same output
`const int32_t**`, so the emitted `const` is not attached to the
position of the `*const` marker. -/
theorem c5_counterexample :
    rust_to_c "*const *mut i32" = "const int32_t**" ∧
    rust_to_c "*mut *const i32" = "const int32_t**" := by
  constructor <;> simp +decide [rust_to_c, rustTrim, trimLeft]

/-- Witness for C5 (for `rust_to_c_spell`) at two concrete markers over
base `i32`. -/
theorem rust_to_c_spell_witness :
    rust_to_c (spellPtrType [(PtrMarker.Const, " "), (PtrMarker.Mut, " ")] "i32")
      = constPrefix (countConst [(PtrMarker.Const, " "), (PtrMarker.Mut, " ")]) ++
        rust_to_c "i32" ++
        starsSuffix ([(PtrMarker.Const, " "), (PtrMarker.Mut, " ")].length) :=
  rust_to_c_spell [(PtrMarker.Const, " "), (PtrMarker.Mut, " ")] "i32"
    (by decide) (by decide) (by decide) (by decide)


theorem check_item_success_shape (pre : String) (it : Item)
    (herr : (check_item pre it).errs = []) (hfat : (check_item pre it).fatal = none) :
    (check_item pre it).buffer = pre ∨
      ∃ a, (check_item pre it).buffer = a ++ ";\n\n" := by
  obtain ⟨name, vis, attrs, node, sp⟩ := it
  cases vis with
  | Inherited => left; simp [check_item]
  | Public =>
    cases node with
    | ItemOther => left; simp [check_item]
    | ItemTy ty param =>
      cases param with
      | true => left; simp [check_item, parse_ty]
      | false =>
        right
        simp only [check_item, parse_ty]
        exact ⟨_, rfl⟩
    | ItemEnum vs param =>
      by_cases hpr : (parse_attr attrs check_repr_c retrieve_docstring).1 = false
      · left
        have hs := parse_enum_skip pre ⟨name, .Public, attrs, .ItemEnum vs param, sp⟩ hpr
        simp [check_item, hs]
      · cases param with
        | true =>
          exfalso
          have ht : (parse_attr attrs check_repr_c retrieve_docstring).1 = true := by
            cases hb : (parse_attr attrs check_repr_c retrieve_docstring).1
            · exact absurd hb hpr
            · rfl
          have he := parse_enum_param_err pre name .Public attrs vs sp ht
          simp only [check_item, he] at herr
          simp at herr
        | false =>
          simp only [check_item, parse_enum, if_neg hpr] at herr hfat ⊢
          cases hcase : enumVariantsLoop (pre ++
              (parse_attr attrs check_repr_c retrieve_docstring).2 ++
              "typedef enum " ++ name ++ " \x7b\n") vs with
          | inl r =>
            exfalso
            simp only [hcase] at herr
            exact enumVariantsLoop_inl_errs vs _ r hcase herr
          | inr s =>
            simp only [hcase]
            right
            exact ⟨_, rfl⟩
    | ItemStruct vd param =>
      by_cases hpr : (parse_attr attrs check_repr_c retrieve_docstring).1 = false
      · left
        have hs := parse_struct_skip pre ⟨name, .Public, attrs, .ItemStruct vd param, sp⟩ hpr
        simp [check_item, hs]
      · have ht : (parse_attr attrs check_repr_c retrieve_docstring).1 = true := by
          cases hb : (parse_attr attrs check_repr_c retrieve_docstring).1
          · exact absurd hb hpr
          · rfl
        cases param with
        | true =>
          exfalso
          have he := parse_struct_param_err pre name .Public attrs vd sp ht
          simp only [check_item, he] at herr
          simp at herr
        | false =>
          cases vd with
          | TupleOrUnit =>
            exfalso
            have he := parse_struct_tuple_err pre name .Public attrs sp ht
            simp only [check_item, he] at herr
            simp at herr
          | Struct fields =>
            simp only [check_item, parse_struct, if_neg hpr] at herr hfat ⊢
            cases hcase : structFieldsLoop (pre ++
                (parse_attr attrs check_repr_c retrieve_docstring).2 ++
                "typedef struct " ++ name ++ " \x7b\n") fields with
            | inl r =>
              exfalso
              simp only [hcase] at hfat
              exact structFieldsLoop_inl_fatal fields _ r hcase hfat
            | inr s =>
              simp only [hcase]
              right
              exact ⟨_, rfl⟩
    | ItemFn decl abi param =>
      obtain ⟨inputs, output⟩ := decl
      by_cases hpr : (parse_attr attrs check_no_mangle retrieve_docstring).1 = false
      · left
        have hs := parse_fn_skip pre
          ⟨name, .Public, attrs, .ItemFn ⟨inputs, output⟩ abi param, sp⟩ hpr
        simp [check_item, hs]
      · have ht : (parse_attr attrs check_no_mangle retrieve_docstring).1 = true := by
          cases hb : (parse_attr attrs check_no_mangle retrieve_docstring).1
          · exact absurd hb hpr
          · rfl
        cases abi with
        | Rust => left; simp [check_item, parse_fn, if_neg hpr]
        | C | Cdecl | Stdcall | Fastcall | System =>
          cases param with
          | true =>
            exfalso
            simp only [check_item, parse_fn, if_neg hpr] at herr
            simp at herr
          | false =>
            cases output with
            | NoReturn rsp =>
              exfalso
              simp only [check_item, parse_fn, if_neg hpr] at herr
              simp at herr
            | DefaultReturn =>
              obtain ⟨y, hy⟩ := fnSignatureTail_last pre
                (parse_attr attrs check_no_mangle retrieve_docstring).2 "void" name inputs
              simp only [check_item, parse_fn, if_neg hpr, hy, Bool.false_eq_true,
                if_false]
              right
              refine ⟨y ++ ")", ?_⟩
              rw [String.append_assoc]
              exact congrArg (fun t => y ++ t) (by rfl)
            | Return ty =>
              obtain ⟨y, hy⟩ := fnSignatureTail_last pre
                (parse_attr attrs check_no_mangle retrieve_docstring).2 (rust_to_c ty)
                name inputs
              simp only [check_item, parse_fn, if_neg hpr, hy, Bool.false_eq_true,
                if_false]
              right
              refine ⟨y ++ ")", ?_⟩
              rw [String.append_assoc]
              exact congrArg (fun t => y ++ t) (by rfl)


/-- C3 counterexample: scanning a single public generic `#[repr(C)]`
enum leaves the partial fragment `typedef enum Qux {\n` in the buffer,
which is terminated by no `;\n\n`, refuting `no emitter ever leaves a
partial, unterminated fragment in the buffer`. -/
theorem c3_counterexample :
    (runScan "" [] [⟨"Qux", .Public, [⟨.MetaList "repr" [.MetaWord "C"]⟩],
        .ItemEnum [] true, 7⟩]).1 = "typedef enum Qux \x7b\n" ∧
    ∀ a : String, "typedef enum Qux \x7b\n" ≠ a ++ ";\n\n" := by
  constructor
  · rfl
  · intro a h
    have h1 : ("typedef enum Qux \x7b\n" : String).data.reverse.take 3
        = '\n' :: '\x7b' :: ' ' :: [] := by decide
    have h2 : (a ++ ";\n\n").data.reverse.take 3 = '\n' :: '\n' :: ';' :: [] := by
      rw [strData_append, List.reverse_append]
      rw [show (";\n\n" : String).data.reverse = '\n' :: '\n' :: ';' :: [] from rfl]
      exact List.take_left' (by rfl)
    rw [h, h2] at h1
    exact absurd h1 (by decide)

/-- C3 amended: every emitter call preserves the prior buffer as an
unchanged prefix (the only removal, the trailing `, ` pop in `parse_fn`,
only affects text written by the same call); a diagnostic-free,
non-fatal emitter run leaves the buffer unchanged or appends a fragment
terminated by `;\n\n`; but a declaration that fails mid-emission may
leave a partial, unterminated fragment. -/
theorem c3_append_only_terminated (pre : String) (it : Item) :
    (check_item pre it).buffer = pre ++ (check_item "" it).buffer ∧
    ((check_item pre it).errs = [] → (check_item pre it).fatal = none →
      (check_item pre it).buffer = pre ∨
        ∃ a, (check_item pre it).buffer = a ++ ";\n\n") :=
  ⟨by rw [check_item_split pre it]; rfl,
   fun herr hfat => check_item_success_shape pre it herr hfat⟩

/-- Witness for C3 at a concrete successful function emission. -/
theorem c3_append_only_terminated_witness :
    (check_item "P" ⟨"f", .Public, [⟨.MetaWord "no_mangle"⟩],
        .ItemFn ⟨[], .DefaultReturn⟩ .C false, 3⟩).buffer
      = "P" ++ (check_item "" ⟨"f", .Public, [⟨.MetaWord "no_mangle"⟩],
        .ItemFn ⟨[], .DefaultReturn⟩ .C false, 3⟩).buffer ∧
    ((check_item "P" ⟨"f", .Public, [⟨.MetaWord "no_mangle"⟩],
        .ItemFn ⟨[], .DefaultReturn⟩ .C false, 3⟩).buffer = "P" ∨
      ∃ a, (check_item "P" ⟨"f", .Public, [⟨.MetaWord "no_mangle"⟩],
        .ItemFn ⟨[], .DefaultReturn⟩ .C false, 3⟩).buffer = a ++ ";\n\n") :=
  ⟨(c3_append_only_terminated "P" ⟨"f", .Public, [⟨.MetaWord "no_mangle"⟩],
      .ItemFn ⟨[], .DefaultReturn⟩ .C false, 3⟩).1,
   (c3_append_only_terminated "P" ⟨"f", .Public, [⟨.MetaWord "no_mangle"⟩],
      .ItemFn ⟨[], .DefaultReturn⟩ .C false, 3⟩).2 rfl rfl⟩

/-- C10: finalization writes the include guard (token derived from the
configured file's stem, with fixed defaults), the extern-C opener, the
includes, the buffer and the epilogue in that order; the first failure
at any step is reported once with its cause and aborts all remaining
steps. -/
theorem c10_finalizer_order_failfast (pass : CheddarPass) (e : String)
    (writeRes : Nat → Option String) :
    (cheddarDrop pass none (fun _ => none) =
      (includeGuardText (pass.file.getD "cheddar.h") ++ externOpenText ++ includesText ++
        pass.buffer ++ epilogueText, [])) ∧
    (∀ file, includeGuardText file =
      "#ifndef cheddar_gen_" ++ ((file_stem file).getD "default") ++
        "_h\n#define cheddar_gen_" ++ ((file_stem file).getD "default") ++ "_h\n\n") ∧
    (pass.file = none →
      includeGuardText (pass.file.getD "cheddar.h")
        = "#ifndef cheddar_gen_cheddar_h\n#define cheddar_gen_cheddar_h\n\n") ∧
    (cheddarDrop pass (some e) writeRes =
      ("", ["Error: could not open " ++
        joinPath (pass.dir.getD "") (pass.file.getD "cheddar.h") ++ ": " ++ e])) ∧
    (writeRes 0 = some e → cheddarDrop pass none writeRes =
      ("", ["Error: could not write include guard to header: " ++ e])) ∧
    (writeRes 0 = none → writeRes 1 = some e → cheddarDrop pass none writeRes =
      (includeGuardText (pass.file.getD "cheddar.h"),
        ["Error: could not write C++ extern guard to header: " ++ e])) ∧
    (writeRes 0 = none → writeRes 1 = none → writeRes 2 = some e →
      cheddarDrop pass none writeRes =
      (includeGuardText (pass.file.getD "cheddar.h") ++ externOpenText,
        ["Error: could not write includes to header: " ++ e])) ∧
    (writeRes 0 = none → writeRes 1 = none → writeRes 2 = none → writeRes 3 = some e →
      cheddarDrop pass none writeRes =
      (includeGuardText (pass.file.getD "cheddar.h") ++ externOpenText ++ includesText,
        ["Error: could not write buffer to header: " ++ e])) ∧
    (writeRes 0 = none → writeRes 1 = none → writeRes 2 = none → writeRes 3 = none →
      writeRes 4 = some e → cheddarDrop pass none writeRes =
      (includeGuardText (pass.file.getD "cheddar.h") ++ externOpenText ++ includesText ++
        pass.buffer,
        ["Error: could not write epilogue to header: " ++ e])) := by
  refine ⟨rfl, fun file => rfl, ?_, rfl, ?_, ?_, ?_, ?_, ?_⟩
  · intro hf
    rw [hf]
    decide
  · intro h0
    simp only [cheddarDrop, h0]
  · intro h0 h1
    simp only [cheddarDrop, h0, h1]
  · intro h0 h1 h2
    simp only [cheddarDrop, h0, h1, h2]
  · intro h0 h1 h2 h3
    simp only [cheddarDrop, h0, h1, h2, h3]
  · intro h0 h1 h2 h3 h4
    simp only [cheddarDrop, h0, h1, h2, h3, h4]

/-- Witness for C10: a concrete pass whose second write fails. -/
theorem c10_finalizer_order_failfast_witness :
    cheddarDrop ⟨"BUF", none, none⟩ none
        (fun n => if n = 1 then some "disk full" else none)
      = (includeGuardText "cheddar.h",
        ["Error: could not write C++ extern guard to header: " ++ "disk full"]) :=
  (c10_finalizer_order_failfast ⟨"BUF", none, none⟩ "disk full"
    (fun n => if n = 1 then some "disk full" else none)).2.2.2.2.2.1 rfl rfl

end Cheddar
